import Mathlib

/-!
Verification of the FocusView focus-tracking and region-compositing core
(`src/main.py`) against its natural-language specification.

The Python source is shallowly embedded: Qt's integer rectangle type
`QRect` becomes a structure over `Int` (Qt stores inclusive corner
coordinates `x2 = x + w - 1`; operations below mirror the Qt 6 sources of
`QRect::operator&`, `QRect::contains`, `QRect::center`); Cocoa's
float-valued `NSRect` becomes a structure over `ℚ` (all arithmetic the
program performs on these values is addition and subtraction of integers,
which floats represent exactly); timer-driven code becomes an explicit
step function on a state type, advancing one time-unit (millisecond) per
step, with the poll tick processed before the debounce-timer check within
a time unit.
-/

/-- Qt integer rectangle (`QRect`): origin `(x, y)` with extent `w × h` in a
top-left-origin, Y-down coordinate convention. -/
structure QRect where
  x : Int
  y : Int
  w : Int
  h : Int
deriving DecidableEq, Repr

namespace QRect

/-- Qt `QRect::isNull`: both width and height are zero. -/
def isNull (r : QRect) : Prop := r.w = 0 ∧ r.h = 0

instance (r : QRect) : Decidable r.isNull := by unfold isNull; infer_instance

/-- Lower end of an inclusive coordinate range after Qt's normalisation in
`QRect::operator&` (`if (x2 - x1 + 1 < 0) l1 = x2; else r1 = x2;`). -/
def normLow (pos len : Int) : Int := if len < 0 then pos + len - 1 else pos

/-- Upper end of an inclusive coordinate range after Qt's normalisation. -/
def normHigh (pos len : Int) : Int := if len < 0 then pos else pos + len - 1

/-- Qt `QRect::operator&` (used by `QRect.intersected`): intersection of two
rectangles, returning the null rectangle when either operand is null or the
(normalised) coordinate ranges are disjoint. -/
def intersected (self other : QRect) : QRect :=
  if self.isNull ∨ other.isNull then ⟨0, 0, 0, 0⟩
  else if normLow self.x self.w > normHigh other.x other.w
          ∨ normLow other.x other.w > normHigh self.x self.w then ⟨0, 0, 0, 0⟩
  else if normLow self.y self.h > normHigh other.y other.h
          ∨ normLow other.y other.h > normHigh self.y self.h then ⟨0, 0, 0, 0⟩
  else
    ⟨max (normLow self.x self.w) (normLow other.x other.w),
     max (normLow self.y self.h) (normLow other.y other.h),
     min (normHigh self.x self.w) (normHigh other.x other.w)
       - max (normLow self.x self.w) (normLow other.x other.w) + 1,
     min (normHigh self.y self.h) (normHigh other.y other.h)
       - max (normLow self.y self.h) (normLow other.y other.h) + 1⟩

/-- Qt `QRect::center`: `((x1 + x2) / 2, (y1 + y2) / 2)` with C++ division
truncating toward zero. -/
def center (r : QRect) : Int × Int :=
  (Int.tdiv (r.x + (r.x + r.w - 1)) 2, Int.tdiv (r.y + (r.y + r.h - 1)) 2)

/-- Qt `QRect::contains(QPoint, proper := false)`. -/
def containsPoint (r : QRect) (p : Int × Int) : Bool :=
  let l := if r.x + r.w - 1 < r.x - 1 then r.x + r.w - 1 else r.x
  let rr := if r.x + r.w - 1 < r.x - 1 then r.x else r.x + r.w - 1
  if p.1 < l ∨ p.1 > rr then false
  else
    let t := if r.y + r.h - 1 < r.y - 1 then r.y + r.h - 1 else r.y
    let b := if r.y + r.h - 1 < r.y - 1 then r.y else r.y + r.h - 1
    if p.2 < t ∨ p.2 > b then false else true

/-- Qt `QRect::adjusted(dx1, dy1, dx2, dy2)`. -/
def adjusted (r : QRect) (dx1 dy1 dx2 dy2 : Int) : QRect :=
  ⟨r.x + dx1, r.y + dy1, r.w + (dx2 - dx1), r.h + (dy2 - dy1)⟩

end QRect

/-- Semantic reading of a rectangle as a set of covered unit cells (the
spec's "set of covered unit cells"): cell `(i, j)` lies inside the
half-open box `[x, x + w) × [y, y + h)`. -/
def cellMem (r : QRect) (p : Int × Int) : Prop :=
  r.x ≤ p.1 ∧ p.1 < r.x + r.w ∧ r.y ≤ p.2 ∧ p.2 < r.y + r.h

instance (r : QRect) (p : Int × Int) : Decidable (cellMem r p) := by
  unfold cellMem; infer_instance

/-- Cocoa rectangle (`NSRect` from `NSMakeRect`): float-valued, bottom-left
origin, Y-up convention; modelled over `ℚ`. -/
structure NSRect where
  x : ℚ
  y : ℚ
  width : ℚ
  height : ℚ
deriving DecidableEq, Repr

/-- Model of `_qt_union_geometry` from `src/main.py`: bounding box of all screen
geometries in Qt (ToolkitSpace) coordinates; `QRect(0, 0, 0, 0)` when there
are no screens. -/
def _qt_union_geometry (screens : List QRect) : QRect :=
  match screens with
  | [] => ⟨0, 0, 0, 0⟩
  | s :: ss =>
    let min_x := ss.foldl (fun acc r => min acc r.x) s.x
    let min_y := ss.foldl (fun acc r => min acc r.y) s.y
    let max_x := ss.foldl (fun acc r => max acc (r.x + r.w)) (s.x + s.w)
    let max_y := ss.foldl (fun acc r => max acc (r.y + r.h)) (s.y + s.h)
    ⟨min_x, min_y, max_x - min_x, max_y - min_y⟩

/-- Model of `_ns_union_frame` from `src/main.py`: bounding box of all screen frames
in Cocoa (CompositorSpace) coordinates; `(0, 0, 0, 0)` when there are no
screens. -/
def _ns_union_frame (screens : List NSRect) : NSRect :=
  match screens with
  | [] => ⟨0, 0, 0, 0⟩
  | s :: ss =>
    let min_x := ss.foldl (fun acc f => min acc f.x) s.x
    let min_y := ss.foldl (fun acc f => min acc f.y) s.y
    let max_x := ss.foldl (fun acc f => max acc (f.x + f.width)) (s.x + s.width)
    let max_y := ss.foldl (fun acc f => max acc (f.y + f.height)) (s.y + s.height)
    ⟨min_x, min_y, max_x - min_x, max_y - min_y⟩

/-- The `_QtToCocoaMapper` state: the two display-union bounding boxes it is
constructed from. -/
structure QtToCocoaMapper where
  qt_union : QRect
  ns_union : NSRect
deriving DecidableEq, Repr

/-- Model of `_QtToCocoaMapper.__init__`: derive the mapper from the display lists. -/
def mkQtToCocoaMapper (qtScreens : List QRect) (nsScreens : List NSRect) : QtToCocoaMapper :=
  ⟨_qt_union_geometry qtScreens, _ns_union_frame nsScreens⟩

/-- Model of `_QtToCocoaMapper.qt_rect_to_ns_rect`: map X linearly by re-anchoring at
the Cocoa union's left edge; flip Y around the Qt union's bottom edge and
re-anchor at the Cocoa union's bottom edge; width and height pass through. -/
def qt_rect_to_ns_rect (m : QtToCocoaMapper) (rect : QRect) : NSRect :=
  let ns_x : ℚ := m.ns_union.x + ((rect.x : ℚ) - (m.qt_union.x : ℚ))
  let qt_union_bottom : Int := m.qt_union.y + m.qt_union.h
  let ns_y : ℚ := m.ns_union.y + ((qt_union_bottom : ℚ) - (rect.y : ℚ) - (rect.h : ℚ))
  ⟨ns_x, ns_y, (rect.w : ℚ), (rect.h : ℚ)⟩

/-- The coordinate mapping exactly as the spec words it (§4.1):
`outX = Cx + (r.x - Ux)`, `outY = Cy + ((Uy + Uh) - r.y - r.height)`,
width/height unchanged.  Kept separate from `qt_rect_to_ns_rect` so the two
can be compared. -/
def spec_toCompositorSpace (U : QRect) (C : NSRect) (r : QRect) : NSRect :=
  ⟨C.x + ((r.x : ℚ) - (U.x : ℚ)),
   C.y + (((U.y : ℚ) + (U.h : ℚ)) - (r.y : ℚ) - (r.h : ℚ)),
   (r.w : ℚ), (r.h : ℚ)⟩

/-! ## Region partitioner: `NativeBlurOverlayGroup.show_outside_rect` -/

/-- The state of the four blur panels when all are hidden (`hide`: every
panel ordered out). -/
def hiddenPanels : List (Option QRect) := [none, none, none, none]

/-- Model of `NativeBlurOverlayGroup.show_outside_rect`: resulting state of the four
blur panels, in order.  `none` means the panel is hidden (`orderOut_`);
`some region` means its frame is set to `region` (mapped to Cocoa
coordinates by `qt_rect_to_ns_rect` before the `setFrame_display_` call)
and the panel is shown (`orderFrontRegardless`). -/
def show_outside_rect (screen_rect focus_rect : QRect) : List (Option QRect) :=
  if screen_rect.isNull ∨ focus_rect.isNull then hiddenPanels
  else
    let focus := focus_rect.intersected screen_rect
    let regions :=
      if focus.isNull ∨ focus.w ≤ 0 ∨ focus.h ≤ 0 then [screen_rect]
      else
        let sx := screen_rect.x
        let sy := screen_rect.y
        let sw := screen_rect.w
        let sh := screen_rect.h
        let fx := focus.x
        let fy := focus.y
        let fw := focus.w
        let fh := focus.h
        let top_h := fy - sy
        let bottom_y := fy + fh
        let bottom_h := (sy + sh) - bottom_y
        let left_w := fx - sx
        let right_x := fx + fw
        let right_w := (sx + sw) - right_x
        [QRect.mk sx sy sw top_h,
         QRect.mk sx bottom_y sw bottom_h,
         QRect.mk sx fy left_w fh,
         QRect.mk right_x fy right_w fh]
    let padded := regions.take 4 ++ List.replicate (4 - regions.length) (QRect.mk 0 0 0 0)
    padded.map fun region =>
      if region.isNull ∨ region.w ≤ 0 ∨ region.h ≤ 0 then none else some region

/-- The regions actually shown by `show_outside_rect`, in panel order. -/
def shownRegions (screen_rect focus_rect : QRect) : List QRect :=
  (show_outside_rect screen_rect focus_rect).filterMap id

/-- Top strip exactly as the spec words it (§4.2, step 1). -/
def specTopStrip (outer inner : QRect) : QRect :=
  ⟨outer.x, outer.y, outer.w, inner.y - outer.y⟩

/-- Bottom strip exactly as the spec words it (§4.2, step 2). -/
def specBottomStrip (outer inner : QRect) : QRect :=
  ⟨outer.x, inner.y + inner.h, outer.w, (outer.y + outer.h) - (inner.y + inner.h)⟩

/-- Left strip exactly as the spec words it (§4.2, step 3). -/
def specLeftStrip (outer inner : QRect) : QRect :=
  ⟨outer.x, inner.y, inner.x - outer.x, inner.h⟩

/-- Right strip exactly as the spec words it (§4.2, step 4). -/
def specRightStrip (outer inner : QRect) : QRect :=
  ⟨inner.x + inner.w, inner.y, (outer.x + outer.w) - (inner.x + inner.w), inner.h⟩

/-- The spec's partition output (§4.2): the four strips in the fixed order
top, bottom, left, right, with strips of non-positive width or height
dropped. -/
def specStrips (outer inner : QRect) : List QRect :=
  [specTopStrip outer inner, specBottomStrip outer inner,
   specLeftStrip outer inner, specRightStrip outer inner].filter
    fun r => decide (0 < r.w) && decide (0 < r.h)

/-! ## Geometry probe: `get_active_window_geometry` -/

/-- The dictionary returned by `NSWorkspace.activeApplication()`; only the
`NSApplicationProcessIdentifier` entry is consulted, and it may be absent. -/
structure ActiveAppInfo where
  pid : Option Int
deriving DecidableEq, Repr

/-- The `kCGWindowBounds` dictionary of a window (a required key of window
descriptions returned by `CGWindowListCopyWindowInfo`); float-valued,
modelled over `ℚ`. -/
structure CGWindowBounds where
  X : ℚ
  Y : ℚ
  Width : ℚ
  Height : ℚ
deriving DecidableEq, Repr

/-- One entry of the `CGWindowListCopyWindowInfo` result.  `kCGWindowOwnerPID`
may be absent (then the pid comparison fails); `kCGWindowLayer` defaults to 0
and `kCGWindowAlpha` to 1 via `dict.get(key, default)`. -/
structure WindowInfo where
  ownerPID : Option Int
  layer : Option Int
  alpha : Option ℚ
  bounds : CGWindowBounds
deriving DecidableEq, Repr

/-- Python `int()` applied to a float/rational: truncation toward zero. -/
def pyInt (q : ℚ) : Int := if 0 ≤ q then ⌊q⌋ else ⌈q⌉

/-- The geometry dictionary `get_active_window_geometry` returns. -/
structure ActiveWindowGeometry where
  x : Int
  y : Int
  width : Int
  height : Int
deriving DecidableEq, Repr

/-- Conversion of the geometry dictionary into the `QRect` built in
`check_for_window_changes`. -/
def ActiveWindowGeometry.toQRect (g : ActiveWindowGeometry) : QRect :=
  ⟨g.x, g.y, g.width, g.height⟩

/-- The `for window in window_list` loop of `get_active_window_geometry`:
the first window owned by `pid` that is on layer 0, not fully transparent,
and at least 50×50 yields the result; all other windows are skipped. -/
def findActiveWindow (pid : Int) : List WindowInfo → Option ActiveWindowGeometry
  | [] => none
  | w :: ws =>
    if w.ownerPID = some pid then
      if w.layer.getD 0 ≠ 0 then findActiveWindow pid ws
      else if w.alpha.getD 1 = 0 then findActiveWindow pid ws
      else if w.bounds.Width < 50 ∨ w.bounds.Height < 50 then findActiveWindow pid ws
      else some ⟨pyInt w.bounds.X, pyInt w.bounds.Y,
                 pyInt w.bounds.Width, pyInt w.bounds.Height⟩
    else findActiveWindow pid ws

/-- Model of `get_active_window_geometry` from `src/main.py`: `none` when there is no
active application, no pid for it, or no qualifying window. -/
def get_active_window_geometry (active_app_info : Option ActiveAppInfo)
    (window_list : List WindowInfo) : Option ActiveWindowGeometry :=
  match active_app_info with
  | none => none
  | some info =>
    match info.pid with
    | none => none
    | some pid => findActiveWindow pid window_list

/-- The filter a window must pass to be returned by the probe: owned by the
frontmost pid, standard layer (0), non-zero alpha, at least 50×50. -/
def windowPasses (pid : Int) (w : WindowInfo) : Bool :=
  decide (w.ownerPID = some pid) && decide (w.layer.getD 0 = 0)
    && !decide (w.alpha.getD 1 = 0)
    && decide (50 ≤ w.bounds.Width) && decide (50 ≤ w.bounds.Height)

/-- The geometry dictionary built from a window's bounds. -/
def windowGeometry (w : WindowInfo) : ActiveWindowGeometry :=
  ⟨pyInt w.bounds.X, pyInt w.bounds.Y, pyInt w.bounds.Width, pyInt w.bounds.Height⟩

/-! ## Overlay compositor and focus tracker: `FocusViewApp` -/

/-- One attached display as seen by the app: its Qt geometry and its usable
(`availableGeometry`) area.  `id` stands for the object identity of the
`QScreen` instance keying the overlay dictionaries. -/
structure Screen where
  id : Nat
  geometry : QRect
  availableGeometry : QRect
deriving DecidableEq, Repr

/-- Model of `QApplication.screenAt(point)`: the screen whose geometry contains the
point, or `none`. -/
def screenAt (screens : List Screen) (p : Int × Int) : Option Screen :=
  screens.find? fun s => s.geometry.containsPoint p

/-- Observable state of one display's overlay set: the border overlay's
geometry, window opacity and visibility, plus the four blur panels
(`none` = hidden, `some r` = shown covering the Qt-space region `r`). -/
structure SurfaceState where
  borderFrame : QRect
  borderOpacity : ℚ
  borderVisible : Bool
  blurPanels : List (Option QRect)
deriving DecidableEq, Repr

/-- The single `QPropertyAnimation` reference held in `self.animation`:
which screen's border overlay it targets and its start/end opacity and
duration. -/
structure FadeAnim where
  screenId : Nat
  startValue : ℚ
  endValue : ℚ
  duration : Nat
deriving DecidableEq, Repr

/-- Observable compositor state: one `SurfaceState` per screen (in the order
of the screen list) and the single owned animation reference. -/
structure CompositorState where
  surfaces : List SurfaceState
  animRef : Option FadeAnim
deriving DecidableEq, Repr

/-- The constant `DEBOUNCE_DELAY = 200` (`src/main.py`, line 30). -/
def DEBOUNCE_DELAY : Nat := 200

/-- The poll period from `self.poll_timer.start(100)`: poll period in time-units. -/
def POLL_PERIOD : Nat := 100

/-- The constant `BLUR_HOLE_PADDING = 0` (`src/main.py`, line 31). -/
def BLUR_HOLE_PADDING : Int := 0

/-- Model of `FocusViewApp.fade_overlay`: overwrite the single owned animation
reference with a new animation on the given overlay. -/
def fade_overlay (comp : CompositorState) (targetScreenId : Nat)
    (start finish : ℚ) (duration : Nat) : CompositorState :=
  { comp with animRef := some ⟨targetScreenId, start, finish, duration⟩ }

/-- Effect of one iteration of the `for screen, overlay in
self.screen_overlays.items()` loop in `show_border_at_final_position` on the
screen's surfaces: the active screen's border is moved to the tracked
rectangle, made transparent, shown, and (when blur is enabled) its blur
panels re-placed; every other screen's border and blur panels are hidden. -/
def settleSurfaceUpdate (active_screen : Option Screen) (blur_enabled : Bool)
    (rect : QRect) (screen : Screen) (surf : SurfaceState) : SurfaceState :=
  if active_screen = some screen then
    let focus_rect :=
      if BLUR_HOLE_PADDING ≠ 0 then
        rect.adjusted (-BLUR_HOLE_PADDING) (-BLUR_HOLE_PADDING)
          BLUR_HOLE_PADDING BLUR_HOLE_PADDING
      else rect
    { surf with
      borderFrame := rect
      borderOpacity := 0
      borderVisible := true
      blurPanels :=
        if blur_enabled then show_outside_rect screen.availableGeometry focus_rect
        else surf.blurPanels }
  else
    { surf with borderVisible := false, blurPanels := hiddenPanels }

/-- Model of `FocusViewApp.show_border_at_final_position`: returns immediately when no
rectangle is tracked; otherwise determines the active screen via
`QApplication.screenAt` on the tracked rectangle's center, updates every
screen's surfaces, and (for the active screen) replaces the owned animation
reference with a fade from opacity 0 to 1 over 500 time-units. -/
def show_border_at_final_position (screens : List Screen) (blur_enabled : Bool)
    (last_active_rect : Option QRect) (comp : CompositorState) : CompositorState :=
  match last_active_rect with
  | none => comp
  | some rect =>
    let active_screen := screenAt screens rect.center
    let comp' : CompositorState :=
      { comp with
        surfaces := List.zipWith (settleSurfaceUpdate active_screen blur_enabled rect)
          screens comp.surfaces }
    match active_screen with
    | some a => if a ∈ screens then fade_overlay comp' a.id 0 1 500 else comp'
    | none => comp'

/-- The focus tracker's mutable fields: `self.last_active_rect` and the
single-shot debounce timer, represented by the absolute time at which it
will fire (`none` = not running / already fired). -/
structure TrackState where
  last_active_rect : Option QRect
  deadline : Option Nat
deriving DecidableEq, Repr

/-- Model of `FocusViewApp.check_for_window_changes`, given the probe's sample already
converted to an optional `QRect`: when the sample differs from the last
observed raw sample, record it, hide every border overlay and every blur
overlay group, and (only for a non-null sample) restart the debounce timer
with delay `DEBOUNCE_DELAY`.  A null sample leaves a running debounce timer
untouched. -/
def check_for_window_changes (tr : TrackState) (comp : CompositorState)
    (current_rect : Option QRect) (now : Nat) : TrackState × CompositorState :=
  if current_rect ≠ tr.last_active_rect then
    ({ last_active_rect := current_rect
     , deadline :=
        if current_rect.isSome then some (now + DEBOUNCE_DELAY) else tr.deadline },
     { comp with
       surfaces := comp.surfaces.map fun s =>
         { s with borderVisible := false, blurPanels := hiddenPanels } })
  else (tr, comp)

/-- Whole-app state driven by the two timers. -/
structure AppState where
  track : TrackState
  comp : CompositorState
deriving DecidableEq, Repr

/-- One time-unit of the event loop: at multiples of `POLL_PERIOD` the poll
tick runs `check_for_window_changes` on sample number `now / POLL_PERIOD`;
then, if the single-shot debounce timer expires at `now`, it fires
`show_border_at_final_position`.  The returned flag records a settle event:
the debounce callback firing with a non-null tracked rectangle (the event
that shows the border). -/
def runStep (screens : List Screen) (blur_enabled : Bool)
    (samples : Nat → Option QRect) (now : Nat) (st : AppState) : AppState × Bool :=
  let st1 : AppState :=
    if now % POLL_PERIOD = 0 then
      let r := check_for_window_changes st.track st.comp (samples (now / POLL_PERIOD)) now
      ⟨r.1, r.2⟩
    else st
  if st1.track.deadline = some now then
    (⟨⟨st1.track.last_active_rect, none⟩,
      show_border_at_final_position screens blur_enabled st1.track.last_active_rect st1.comp⟩,
     st1.track.last_active_rect.isSome)
  else (st1, false)

/-- The focus-tracking portion of `runStep`, which does not depend on the
screens, the blur flag or the compositor state. -/
def trackStep (samples : Nat → Option QRect) (now : Nat) (tr : TrackState) :
    TrackState × Bool :=
  let tr1 :=
    if now % POLL_PERIOD = 0 then
      if samples (now / POLL_PERIOD) ≠ tr.last_active_rect then
        { last_active_rect := samples (now / POLL_PERIOD)
        , deadline :=
            if (samples (now / POLL_PERIOD)).isSome then some (now + DEBOUNCE_DELAY)
            else tr.deadline }
      else tr
    else tr
  if tr1.deadline = some now then (⟨tr1.last_active_rect, none⟩, tr1.last_active_rect.isSome)
  else (tr1, false)

/-- Surfaces at startup: each border overlay is created with its screen's
geometry, default opacity, not shown; all blur panels start ordered out. -/
def initSurface (s : Screen) : SurfaceState := ⟨s.geometry, 1, false, hiddenPanels⟩

/-- App state at startup: nothing tracked, no timer armed, no animation. -/
def initialAppState (screens : List Screen) : AppState :=
  ⟨⟨none, none⟩, ⟨screens.map initSurface, none⟩⟩

/-- State after processing every time unit up to and including `t`, paired
with whether a settle event happened at `t`. -/
def run (screens : List Screen) (blur_enabled : Bool)
    (samples : Nat → Option QRect) : Nat → AppState × Bool
  | 0 => runStep screens blur_enabled samples 0 (initialAppState screens)
  | t + 1 => runStep screens blur_enabled samples (t + 1)
      (run screens blur_enabled samples t).1

/-- Whether a settle event (debounce callback firing with a non-null tracked
rectangle) happens at time `t`. -/
def settleAt (screens : List Screen) (blur_enabled : Bool)
    (samples : Nat → Option QRect) (t : Nat) : Bool :=
  (run screens blur_enabled samples t).2

/-! ## Helper lemmas -/

/-- Clipping a non-empty rectangle to a rectangle that contains it is the
identity. -/
theorem intersected_of_contained (inner outer : QRect)
    (hiw : 0 < inner.w) (hih : 0 < inner.h)
    (hx : outer.x ≤ inner.x) (hy : outer.y ≤ inner.y)
    (hxe : inner.x + inner.w ≤ outer.x + outer.w)
    (hye : inner.y + inner.h ≤ outer.y + outer.h) :
    inner.intersected outer = inner := by
  obtain ⟨ix, iy, iw, ih⟩ := inner
  obtain ⟨ox, oy, ow, oh⟩ := outer
  simp only [QRect.intersected, QRect.isNull, QRect.normLow, QRect.normHigh] at *
  split_ifs <;> first
    | (exfalso; omega)
    | (simp only [QRect.mk.injEq]; omega)

/-- Under the C1 hypotheses the four panels carry exactly the four strips,
each shown precisely when its data-dependent dimension is positive. -/
theorem show_outside_rect_of_contained (outer inner : QRect)
    (hiw : 0 < inner.w) (hih : 0 < inner.h)
    (hx : outer.x ≤ inner.x) (hy : outer.y ≤ inner.y)
    (hxe : inner.x + inner.w ≤ outer.x + outer.w)
    (hye : inner.y + inner.h ≤ outer.y + outer.h) :
    show_outside_rect outer inner =
      [if 0 < inner.y - outer.y then some (specTopStrip outer inner) else none,
       if 0 < (outer.y + outer.h) - (inner.y + inner.h) then
         some (specBottomStrip outer inner) else none,
       if 0 < inner.x - outer.x then some (specLeftStrip outer inner) else none,
       if 0 < (outer.x + outer.w) - (inner.x + inner.w) then
         some (specRightStrip outer inner) else none] := by
  have hclip : inner.intersected outer = inner :=
    intersected_of_contained inner outer hiw hih hx hy hxe hye
  obtain ⟨ix, iy, iw, ih⟩ := inner
  obtain ⟨ox, oy, ow, oh⟩ := outer
  simp only [show_outside_rect, hclip, specTopStrip, specBottomStrip, specLeftStrip,
    specRightStrip, QRect.isNull] at *
  split_ifs <;> first
    | (exfalso; omega)
    | (simp_all; try omega)

/-- C1: for every outer rectangle and every non-empty inner rectangle
contained in outer, `show_outside_rect` clips inner to outer and emits, in
the fixed order top, bottom, left, right with non-positive strips dropped
(`specStrips`), at most 4 regions, each non-empty, mutually non-overlapping,
whose union of covered unit cells is exactly outer minus inner. -/
theorem c1_partition_coverage (outer inner : QRect)
    (hiw : 0 < inner.w) (hih : 0 < inner.h)
    (hx : outer.x ≤ inner.x) (hy : outer.y ≤ inner.y)
    (hxe : inner.x + inner.w ≤ outer.x + outer.w)
    (hye : inner.y + inner.h ≤ outer.y + outer.h) :
    shownRegions outer inner = specStrips outer inner
    ∧ (shownRegions outer inner).length ≤ 4
    ∧ (∀ r ∈ shownRegions outer inner, 0 < r.w ∧ 0 < r.h)
    ∧ (shownRegions outer inner).Pairwise
        (fun a b => ∀ p : Int × Int, ¬(cellMem a p ∧ cellMem b p))
    ∧ (∀ p : Int × Int,
        (∃ r ∈ shownRegions outer inner, cellMem r p) ↔
          cellMem outer p ∧ ¬cellMem inner p) := by
  have how : 0 < outer.w := by omega
  have hoh : 0 < outer.h := by omega
  have hshow := show_outside_rect_of_contained outer inner hiw hih hx hy hxe hye
  have hfin : shownRegions outer inner = specStrips outer inner := by
    rw [shownRegions, hshow, specStrips]
    by_cases h1 : 0 < inner.y - outer.y <;>
      by_cases h2 : 0 < (outer.y + outer.h) - (inner.y + inner.h) <;>
      by_cases h3 : 0 < inner.x - outer.x <;>
      by_cases h4 : 0 < (outer.x + outer.w) - (inner.x + inner.w) <;>
      simp [h1, h2, h3, h4, specTopStrip, specBottomStrip, specLeftStrip,
        specRightStrip, how, hoh, hih, List.filter]
  refine ⟨hfin, ?_, ?_, ?_, ?_⟩
  · rw [hfin, specStrips]
    exact (List.length_filter_le _ _).trans (by norm_num)
  · rw [hfin, specStrips]
    intro r hr
    simp only [List.mem_filter, Bool.and_eq_true, decide_eq_true_eq] at hr
    exact hr.2
  · rw [hfin, specStrips]
    refine List.Pairwise.sublist (List.filter_sublist _) ?_
    simp only [List.pairwise_cons, List.mem_cons, List.mem_singleton, List.not_mem_nil,
      List.Pairwise.nil, specTopStrip, specBottomStrip, specLeftStrip, specRightStrip]
    refine ⟨?_, ?_, ?_, ?_⟩
    · rintro b (rfl | rfl | rfl | rfl | h) p hp <;>
        first | (simp only [cellMem] at hp; omega) | cases h
    · rintro b (rfl | rfl | rfl | h) p hp <;>
        first | (simp only [cellMem] at hp; omega) | cases h
    · rintro b (rfl | rfl | h) p hp <;>
        first | (simp only [cellMem] at hp; omega) | cases h
    · exact ⟨fun _ h => h.elim, trivial⟩
  · rw [hfin]
    intro p
    simp only [specStrips, List.mem_filter, List.mem_cons, List.not_mem_nil, or_false,
      Bool.and_eq_true, decide_eq_true_eq, specTopStrip, specBottomStrip, specLeftStrip,
      specRightStrip, cellMem]
    constructor
    · rintro ⟨r, hmem, hpos⟩
      rcases hmem.1 with rfl | rfl | rfl | rfl <;>
        (simp only [] at hpos ⊢; omega)
    · intro hp
      by_cases ht : p.2 < inner.y
      · exact ⟨_, ⟨Or.inl rfl, by simp; omega⟩, by simp; omega⟩
      · by_cases hb : inner.y + inner.h ≤ p.2
        · exact ⟨_, ⟨Or.inr (Or.inl rfl), by simp; omega⟩, by simp; omega⟩
        · by_cases hl : p.1 < inner.x
          · exact ⟨_, ⟨Or.inr (Or.inr (Or.inl rfl)), by simp; omega⟩, by simp; omega⟩
          · exact ⟨_, ⟨Or.inr (Or.inr (Or.inr rfl)), by simp; omega⟩, by simp; omega⟩


@[simp] theorem QRect.mk_x (a b c d : Int) : (QRect.mk a b c d).x = a := rfl

@[simp] theorem QRect.mk_y (a b c d : Int) : (QRect.mk a b c d).y = b := rfl

@[simp] theorem QRect.mk_w (a b c d : Int) : (QRect.mk a b c d).w = c := rfl

@[simp] theorem QRect.mk_h (a b c d : Int) : (QRect.mk a b c d).h = d := rfl

/-- C5 (amended): when outer has positive dimensions and inner is a
non-null rectangle (with the `width ≥ 0 ∧ height ≥ 0` invariant) whose
covered cells do not meet outer's, the whole outer rectangle is shown on
the first blur panel and the remaining three panels are hidden. -/
theorem c5_partition_fallback (outer inner : QRect)
    (how : 0 < outer.w) (hoh : 0 < outer.h)
    (hnn : ¬inner.isNull) (hiw : 0 ≤ inner.w) (hih : 0 ≤ inner.h)
    (hdisj : ∀ p : Int × Int, ¬(cellMem inner p ∧ cellMem outer p)) :
    show_outside_rect outer inner = [some outer, none, none, none] := by
  have hsep : inner.w ≤ 0 ∨ inner.h ≤ 0 ∨ inner.x + inner.w ≤ outer.x
      ∨ outer.x + outer.w ≤ inner.x ∨ inner.y + inner.h ≤ outer.y
      ∨ outer.y + outer.h ≤ inner.y := by
    by_contra hcon
    push_neg at hcon
    exact hdisj ⟨max inner.x outer.x, max inner.y outer.y⟩
      ⟨by simp only [cellMem]; omega, by simp only [cellMem]; omega⟩
  have hfocus : (inner.intersected outer).isNull ∨ (inner.intersected outer).w ≤ 0
      ∨ (inner.intersected outer).h ≤ 0 := by
    clear hdisj
    simp only [QRect.isNull] at hnn
    obtain ⟨ix, iy, iw, ih⟩ := inner
    obtain ⟨ox, oy, ow, oh⟩ := outer
    simp only [QRect.intersected, QRect.isNull, QRect.normLow, QRect.normHigh,
      QRect.mk_x, QRect.mk_y, QRect.mk_w, QRect.mk_h] at *
    split_ifs <;> simp only [QRect.mk_w, QRect.mk_h] <;> omega
  have h1 : ¬(outer.isNull ∨ inner.isNull) :=
    not_or.mpr ⟨by simp only [QRect.isNull]; omega, hnn⟩
  have ho : ¬(outer.isNull ∨ outer.w ≤ 0 ∨ outer.h ≤ 0) := by
    simp only [QRect.isNull]; omega
  have hz : ((QRect.mk 0 0 0 0).isNull ∨ (QRect.mk 0 0 0 0).w ≤ 0
      ∨ (QRect.mk 0 0 0 0).h ≤ 0) := Or.inl ⟨rfl, rfl⟩
  unfold show_outside_rect
  rw [if_neg h1]
  simp only [if_pos hfocus]
  show List.map
      (fun region => if region.isNull ∨ region.w ≤ 0 ∨ region.h ≤ 0 then none else some region)
      [outer, ⟨0, 0, 0, 0⟩, ⟨0, 0, 0, 0⟩, ⟨0, 0, 0, 0⟩] = [some outer, none, none, none]
  simp only [List.map_cons, List.map_nil, if_neg ho, if_pos hz]

/-- Witness for C1 at the spec's single-display scenario: usable area
`(0, 0, 1920, 1080)`, focus `(100, 100, 800, 600)`, giving exactly the four
expected strips together with the exact-coverage property. -/
theorem c1_partition_coverage_witness :
    shownRegions ⟨0, 0, 1920, 1080⟩ ⟨100, 100, 800, 600⟩ =
      [⟨0, 0, 1920, 100⟩, ⟨0, 700, 1920, 380⟩, ⟨0, 100, 100, 600⟩, ⟨900, 100, 1020, 600⟩]
    ∧ ∀ p : Int × Int,
        (∃ r ∈ shownRegions ⟨0, 0, 1920, 1080⟩ ⟨100, 100, 800, 600⟩, cellMem r p) ↔
          cellMem ⟨0, 0, 1920, 1080⟩ p ∧ ¬cellMem ⟨100, 100, 800, 600⟩ p :=
  ⟨by decide,
   (c1_partition_coverage ⟨0, 0, 1920, 1080⟩ ⟨100, 100, 800, 600⟩
      (by decide) (by decide) (by decide) (by decide) (by decide) (by decide)).2.2.2.2⟩

/-- Counterexample for C5 as stated: for the empty (null) inner rectangle
`(0, 0, 0, 0)` — which trivially does not intersect outer — the code hides
all four panels instead of showing `[outer]`. -/
theorem c5_counterexample :
    show_outside_rect ⟨0, 0, 100, 100⟩ ⟨0, 0, 0, 0⟩ = hiddenPanels
    ∧ show_outside_rect ⟨0, 0, 100, 100⟩ ⟨0, 0, 0, 0⟩ ≠
        [some ⟨0, 0, 100, 100⟩, none, none, none] := by
  exact ⟨by decide, by decide⟩

/-- Witness for the amended C5: a non-null inner rectangle entirely to the
right of outer yields the whole outer as the only shown region. -/
theorem c5_partition_fallback_witness :
    show_outside_rect ⟨0, 0, 100, 100⟩ ⟨200, 0, 50, 50⟩ =
      [some ⟨0, 0, 100, 100⟩, none, none, none] :=
  c5_partition_fallback ⟨0, 0, 100, 100⟩ ⟨200, 0, 50, 50⟩
    (by decide) (by decide) (by decide) (by decide) (by decide)
    (fun p hp => by simp only [cellMem] at hp; omega)

/-- C3: for every mapper and input rectangle, `qt_rect_to_ns_rect` computes
exactly the spec's affine formula (`spec_toCompositorSpace`), and when both
union boxes are anchored at the origin with equal size, X passes through and
the vertical center reflects around the union height. -/
theorem c3_coordinate_mapping (m : QtToCocoaMapper) (r : QRect) :
    qt_rect_to_ns_rect m r = spec_toCompositorSpace m.qt_union m.ns_union r
    ∧ (m.qt_union.x = 0 → m.qt_union.y = 0 → m.ns_union.x = 0 → m.ns_union.y = 0 →
        m.ns_union.width = (m.qt_union.w : ℚ) → m.ns_union.height = (m.qt_union.h : ℚ) →
        (qt_rect_to_ns_rect m r).x = (r.x : ℚ)
        ∧ (qt_rect_to_ns_rect m r).y + (r.h : ℚ) / 2 =
            (m.qt_union.h : ℚ) - ((r.y : ℚ) + (r.h : ℚ) / 2)) := by
  constructor
  · simp only [qt_rect_to_ns_rect, spec_toCompositorSpace, NSRect.mk.injEq]
    refine ⟨by ring, by push_cast; ring, trivial, trivial⟩
  · intro hux huy hcx hcy hweq hheq
    simp only [qt_rect_to_ns_rect, hux, huy, hcx, hcy]
    constructor
    · push_cast
      ring
    · push_cast
      ring

/-- Witness for C3 with a single 1920×1080 display anchored at the origin in
both conventions, mapping the rectangle `(100, 100, 800, 600)`. -/
theorem c3_coordinate_mapping_witness :
    qt_rect_to_ns_rect (mkQtToCocoaMapper [⟨0, 0, 1920, 1080⟩] [⟨0, 0, 1920, 1080⟩])
        ⟨100, 100, 800, 600⟩ =
      spec_toCompositorSpace ⟨0, 0, 1920, 1080⟩ ⟨0, 0, 1920, 1080⟩ ⟨100, 100, 800, 600⟩
    ∧ (qt_rect_to_ns_rect (mkQtToCocoaMapper [⟨0, 0, 1920, 1080⟩] [⟨0, 0, 1920, 1080⟩])
        ⟨100, 100, 800, 600⟩).x = 100
    ∧ (qt_rect_to_ns_rect (mkQtToCocoaMapper [⟨0, 0, 1920, 1080⟩] [⟨0, 0, 1920, 1080⟩])
        ⟨100, 100, 800, 600⟩).y + (600 : ℚ) / 2 = 1080 - (100 + (600 : ℚ) / 2) := by
  have h := c3_coordinate_mapping
    (mkQtToCocoaMapper [⟨0, 0, 1920, 1080⟩] [⟨0, 0, 1920, 1080⟩]) ⟨100, 100, 800, 600⟩
  have hu : mkQtToCocoaMapper [⟨0, 0, 1920, 1080⟩] [⟨0, 0, 1920, 1080⟩] =
      ⟨⟨0, 0, 1920, 1080⟩, ⟨0, 0, 1920, 1080⟩⟩ := by
    simp only [mkQtToCocoaMapper, _qt_union_geometry, _ns_union_frame, QtToCocoaMapper.mk.injEq,
      QRect.mk.injEq, NSRect.mk.injEq, List.foldl]
    norm_num
  rw [hu] at h
  have h2 := h.2 rfl rfl rfl rfl (by norm_num) (by norm_num)
  rw [hu]
  exact ⟨h.1, h2.1, by simpa using h2.2⟩

/-- Counterexample for C4 as stated: with zero displays the mapper is not
the identity — the rectangle `(0, 1, 2, 3)` maps to `(0, -4, 2, 3)`, whose
y differs from the input's. -/
theorem c4_counterexample :
    qt_rect_to_ns_rect (mkQtToCocoaMapper [] []) ⟨0, 1, 2, 3⟩ ≠ ⟨0, 1, 2, 3⟩ := by
  simp only [qt_rect_to_ns_rect, mkQtToCocoaMapper, _qt_union_geometry, _ns_union_frame,
    ne_eq, NSRect.mk.injEq]
  norm_num

/-- C4 (amended): with zero attached displays both union boxes are
`{0, 0, 0, 0}` and mapping never fails; x, width and height pass through
unchanged, while y maps to `-(y + height)` (the Y-flip formula applied to a
zero-sized union) — a pass-through identity only in x, not in y. -/
theorem c4_degenerate_mapper :
    (mkQtToCocoaMapper [] []).qt_union = ⟨0, 0, 0, 0⟩
    ∧ (mkQtToCocoaMapper [] []).ns_union = ⟨0, 0, 0, 0⟩
    ∧ ∀ r : QRect, qt_rect_to_ns_rect (mkQtToCocoaMapper [] []) r =
        ⟨(r.x : ℚ), -((r.y : ℚ) + (r.h : ℚ)), (r.w : ℚ), (r.h : ℚ)⟩ := by
  refine ⟨rfl, rfl, fun r => ?_⟩
  simp only [qt_rect_to_ns_rect, mkQtToCocoaMapper, _qt_union_geometry, _ns_union_frame,
    NSRect.mk.injEq]
  refine ⟨by push_cast; ring, by push_cast; ring, trivial, trivial⟩

/-- Dropping an element that fails the predicate anywhere in a list does
not change a first-match search. -/
theorem find?_skip_middle {α : Type} (p : α → Bool) (l1 l2 : List α) (w : α)
    (hw : p w = false) : (l1 ++ w :: l2).find? p = (l1 ++ l2).find? p := by
  induction l1 with
  | nil => simp only [List.nil_append, List.find?, hw]
  | cons v vs ih =>
    cases hv : p v <;>
      simp only [List.cons_append, List.find?, hv, List.append_eq] <;>
      try exact ih

/-- The probe loop is exactly a first-match search with `windowPasses`. -/
theorem findActiveWindow_eq_find (pid : Int) (wl : List WindowInfo) :
    findActiveWindow pid wl = (wl.find? (windowPasses pid)).map windowGeometry := by
  induction wl with
  | nil => rfl
  | cons w ws ih =>
    simp only [findActiveWindow, List.find?]
    by_cases h1 : w.ownerPID = some pid <;>
      by_cases h2 : w.layer.getD 0 = 0 <;>
      by_cases h3 : w.alpha.getD 1 = 0 <;>
      by_cases h4 : 50 ≤ w.bounds.Width <;>
      by_cases h5 : 50 ≤ w.bounds.Height <;>
      simp [windowPasses, windowGeometry, h1, h2, h3, h4, h5, ih, not_lt]

/-- C7: the probe returns `none` when there is no active application or no
pid; otherwise it returns the geometry of the first window of the frontmost
pid that is on layer 0, has non-zero alpha and is at least 50×50 (`none` if
there is no such window); and any window failing those filters is treated
identically to an absent window. -/
theorem c7_probe_filters :
    (∀ wl, get_active_window_geometry none wl = none)
    ∧ (∀ a wl, a.pid = none → get_active_window_geometry (some a) wl = none)
    ∧ (∀ a pid wl, a.pid = some pid →
        get_active_window_geometry (some a) wl =
          (wl.find? (windowPasses pid)).map windowGeometry)
    ∧ (∀ a pid wl1 wl2 w, a.pid = some pid → windowPasses pid w = false →
        get_active_window_geometry (some a) (wl1 ++ w :: wl2) =
          get_active_window_geometry (some a) (wl1 ++ wl2)) := by
  refine ⟨fun wl => rfl, ?_, ?_, ?_⟩
  · intro a wl hp
    simp [get_active_window_geometry, hp]
  · intro a pid wl hp
    simp [get_active_window_geometry, hp, findActiveWindow_eq_find]
  · intro a pid wl1 wl2 w hp hfail
    simp only [get_active_window_geometry, hp, findActiveWindow_eq_find]
    rw [find?_skip_middle _ _ _ _ hfail]

/-- Witness for C7: with frontmost pid 42, a window of another process, a
non-standard-layer window, a transparent window and an undersized window are
all skipped in favour of the first qualifying window. -/
theorem c7_probe_filters_witness :
    get_active_window_geometry (some ⟨some 42⟩)
        [⟨some 7, none, none, ⟨0, 0, 800, 600⟩⟩,
         ⟨some 42, some 25, none, ⟨0, 0, 800, 600⟩⟩,
         ⟨some 42, none, some 0, ⟨0, 0, 800, 600⟩⟩,
         ⟨some 42, none, none, ⟨0, 0, 40, 600⟩⟩,
         ⟨some 42, none, none, ⟨10, 20, 800, 600⟩⟩] = some ⟨10, 20, 800, 600⟩
    ∧ get_active_window_geometry (some ⟨some 42⟩)
        ([⟨some 42, some 25, none, ⟨0, 0, 800, 600⟩⟩]
          ++ ⟨some 42, none, none, ⟨0, 0, 40, 600⟩⟩ ::
             [⟨some 42, none, none, ⟨10, 20, 800, 600⟩⟩]) =
      get_active_window_geometry (some ⟨some 42⟩)
        ([⟨some 42, some 25, none, ⟨0, 0, 800, 600⟩⟩]
          ++ [⟨some 42, none, none, ⟨10, 20, 800, 600⟩⟩]) := by
  constructor
  · rw [c7_probe_filters.2.2.1 ⟨some 42⟩ 42 _ rfl]
    decide
  · exact c7_probe_filters.2.2.2 ⟨some 42⟩ 42 _ _ _ rfl (by decide)

/-- C8: when the debounce callback runs with a non-null tracked rectangle
and some screen's geometry contains its center, the first such screen `a` is
the owning display: its border overlay is framed exactly at the rectangle,
set to opacity 0, shown, with the owned animation replaced by a fade from 0
to 1 over 500 time-units (and its blur panels re-placed when blur is
enabled); the border and all blur panels of every other display are
hidden. -/
theorem c8_settle_places_border (screens : List Screen) (blur_enabled : Bool)
    (rect : QRect) (comp : CompositorState)
    (hexists : ∃ s ∈ screens, s.geometry.containsPoint rect.center = true) :
    ∃ a, screenAt screens rect.center = some a
      ∧ a ∈ screens
      ∧ a.geometry.containsPoint rect.center = true
      ∧ (show_border_at_final_position screens blur_enabled (some rect) comp).animRef
          = some ⟨a.id, 0, 1, 500⟩
      ∧ (show_border_at_final_position screens blur_enabled (some rect) comp).surfaces.length
          = min screens.length comp.surfaces.length
      ∧ ∀ (i : Nat) (s : Screen) (old : SurfaceState),
          screens[i]? = some s → comp.surfaces[i]? = some old →
          (show_border_at_final_position screens blur_enabled (some rect) comp).surfaces[i]?
            = some (if s = a then
                { old with
                  borderFrame := rect
                  borderOpacity := 0
                  borderVisible := true
                  blurPanels :=
                    if blur_enabled then show_outside_rect s.availableGeometry rect
                    else old.blurPanels }
              else { old with borderVisible := false, blurPanels := hiddenPanels }) := by
  obtain ⟨s0, hs0mem, hs0⟩ := hexists
  have hsome : (screens.find? fun s => s.geometry.containsPoint rect.center).isSome :=
    List.find?_isSome.mpr ⟨s0, hs0mem, hs0⟩
  obtain ⟨a, ha⟩ := Option.isSome_iff_exists.mp hsome
  have hamem : a ∈ screens := List.mem_of_find?_eq_some ha
  have hacontains := List.find?_some ha
  have hAt : screenAt screens rect.center = some a := ha
  refine ⟨a, hAt, hamem, hacontains, ?_, ?_, ?_⟩
  · simp [show_border_at_final_position, hAt, hamem, fade_overlay]
  · simp [show_border_at_final_position, hAt, hamem, fade_overlay, List.length_zipWith]
  · intro i s old hs hold
    simp only [show_border_at_final_position, hAt, hamem, if_pos, fade_overlay,
      List.getElem?_zipWith', hs, hold, Option.map_some, Option.bind_some]
    by_cases hsa : s = a
    · subst hsa
      simp [settleSurfaceUpdate, BLUR_HOLE_PADDING]
    · have hne : ¬(some a = some s) := by
        intro hc
        exact hsa (Option.some.inj hc).symm
      simp [settleSurfaceUpdate, hne, hsa]

/-- Witness for C8: two displays side by side; a rectangle centered on the
second display gets the border there while the first display's border and
blur are hidden. -/
theorem c8_settle_places_border_witness :
    ∃ a, screenAt [⟨1, ⟨0, 0, 1920, 1080⟩, ⟨0, 25, 1920, 1055⟩⟩,
                   ⟨2, ⟨1920, 0, 1920, 1080⟩, ⟨1920, 25, 1920, 1055⟩⟩]
          (QRect.center ⟨2000, 100, 800, 600⟩) = some a
      ∧ a ∈ [⟨1, ⟨0, 0, 1920, 1080⟩, ⟨0, 25, 1920, 1055⟩⟩,
             ⟨2, ⟨1920, 0, 1920, 1080⟩, ⟨1920, 25, 1920, 1055⟩⟩]
      ∧ a.geometry.containsPoint (QRect.center ⟨2000, 100, 800, 600⟩) = true
      ∧ (show_border_at_final_position
            [⟨1, ⟨0, 0, 1920, 1080⟩, ⟨0, 25, 1920, 1055⟩⟩,
             ⟨2, ⟨1920, 0, 1920, 1080⟩, ⟨1920, 25, 1920, 1055⟩⟩] false
            (some ⟨2000, 100, 800, 600⟩)
            ⟨[⟨⟨0, 0, 1920, 1080⟩, 1, false, hiddenPanels⟩,
              ⟨⟨1920, 0, 1920, 1080⟩, 1, false, hiddenPanels⟩], none⟩).animRef
          = some ⟨a.id, 0, 1, 500⟩
      ∧ (show_border_at_final_position
            [⟨1, ⟨0, 0, 1920, 1080⟩, ⟨0, 25, 1920, 1055⟩⟩,
             ⟨2, ⟨1920, 0, 1920, 1080⟩, ⟨1920, 25, 1920, 1055⟩⟩] false
            (some ⟨2000, 100, 800, 600⟩)
            ⟨[⟨⟨0, 0, 1920, 1080⟩, 1, false, hiddenPanels⟩,
              ⟨⟨1920, 0, 1920, 1080⟩, 1, false, hiddenPanels⟩], none⟩).surfaces.length = 2
      ∧ ∀ (i : Nat) (s : Screen) (old : SurfaceState),
          [⟨1, ⟨0, 0, 1920, 1080⟩, ⟨0, 25, 1920, 1055⟩⟩,
           (⟨2, ⟨1920, 0, 1920, 1080⟩, ⟨1920, 25, 1920, 1055⟩⟩ : Screen)][i]? = some s →
          [⟨⟨0, 0, 1920, 1080⟩, 1, false, hiddenPanels⟩,
           (⟨⟨1920, 0, 1920, 1080⟩, 1, false, hiddenPanels⟩ : SurfaceState)][i]? = some old →
          (show_border_at_final_position
            [⟨1, ⟨0, 0, 1920, 1080⟩, ⟨0, 25, 1920, 1055⟩⟩,
             ⟨2, ⟨1920, 0, 1920, 1080⟩, ⟨1920, 25, 1920, 1055⟩⟩] false
            (some ⟨2000, 100, 800, 600⟩)
            ⟨[⟨⟨0, 0, 1920, 1080⟩, 1, false, hiddenPanels⟩,
              ⟨⟨1920, 0, 1920, 1080⟩, 1, false, hiddenPanels⟩], none⟩).surfaces[i]?
            = some (if s = a then
                { old with
                  borderFrame := ⟨2000, 100, 800, 600⟩
                  borderOpacity := 0
                  borderVisible := true
                  blurPanels := old.blurPanels }
              else { old with borderVisible := false, blurPanels := hiddenPanels }) := by
  obtain ⟨a, h1, h2, h3, h4, h5, h6⟩ := c8_settle_places_border
    [⟨1, ⟨0, 0, 1920, 1080⟩, ⟨0, 25, 1920, 1055⟩⟩,
     ⟨2, ⟨1920, 0, 1920, 1080⟩, ⟨1920, 25, 1920, 1055⟩⟩] false ⟨2000, 100, 800, 600⟩
    ⟨[⟨⟨0, 0, 1920, 1080⟩, 1, false, hiddenPanels⟩,
      ⟨⟨1920, 0, 1920, 1080⟩, 1, false, hiddenPanels⟩], none⟩
    ⟨⟨2, ⟨1920, 0, 1920, 1080⟩, ⟨1920, 25, 1920, 1055⟩⟩, by decide, by decide⟩
  refine ⟨a, h1, h2, h3, h4, h5, ?_⟩
  intro i s old hs hold
  simpa using h6 i s old hs hold

/-- One screen's settle update is idempotent: overwritten fields get values
independent of the previous surface state, and the rest are preserved. -/
theorem settleSurfaceUpdate_idem (active : Option Screen) (b : Bool) (rect : QRect)
    (s : Screen) (x : SurfaceState) :
    settleSurfaceUpdate active b rect s (settleSurfaceUpdate active b rect s x)
      = settleSurfaceUpdate active b rect s x := by
  by_cases h : active = some s <;> by_cases hb : b <;>
    simp [settleSurfaceUpdate, h, hb]

/-- Idempotence of the settle update lifted to the per-screen surface lists. -/
theorem zipWith_settle_idem (active : Option Screen) (b : Bool) (rect : QRect) :
    ∀ (ss : List Screen) (l : List SurfaceState),
    List.zipWith (settleSurfaceUpdate active b rect) ss
        (List.zipWith (settleSurfaceUpdate active b rect) ss l)
      = List.zipWith (settleSurfaceUpdate active b rect) ss l
  | [], _ => by simp
  | _ :: _, [] => by simp
  | s :: ss, x :: l => by
    simp [settleSurfaceUpdate_idem, zipWith_settle_idem active b rect ss l]

/-- C9: calling the settle handler twice in a row with the same tracked
rectangle yields exactly the compositor state of calling it once — the same
border frames, opacities and blur placement, and the single owned animation
reference is overwritten (replaced, not stacked) by the second call. -/
theorem c9_settle_idempotent (screens : List Screen) (blur_enabled : Bool)
    (last : Option QRect) (comp : CompositorState) :
    show_border_at_final_position screens blur_enabled last
        (show_border_at_final_position screens blur_enabled last comp) =
      show_border_at_final_position screens blur_enabled last comp := by
  cases last with
  | none => rfl
  | some rect =>
    simp only [show_border_at_final_position]
    cases hAt : screenAt screens rect.center with
    | none => simp [zipWith_settle_idem]
    | some a =>
      by_cases hmem : a ∈ screens <;>
        simp [hmem, fade_overlay, zipWith_settle_idem]

/-- C10: with no tracked rectangle the settle handler is a no-op on the
compositor state, and a debounce timer firing in such a state (between poll
ticks) leaves all surfaces untouched and produces no settle event — so the
border is never shown while no focus rectangle is tracked. -/
theorem c10_null_rect_noop :
    (∀ (screens : List Screen) (b : Bool) (comp : CompositorState),
        show_border_at_final_position screens b none comp = comp)
    ∧ (∀ (screens : List Screen) (b : Bool) (samples : Nat → Option QRect)
        (now : Nat) (st : AppState),
        st.track.last_active_rect = none → now % POLL_PERIOD ≠ 0 →
        (runStep screens b samples now st).1.comp = st.comp
        ∧ (runStep screens b samples now st).2 = false) := by
  refine ⟨fun _ _ _ => rfl, ?_⟩
  intro screens b samples now st hnone hmod
  simp only [runStep, if_neg hmod]
  by_cases hd : st.track.deadline = some now
  · simp [hd, hnone, show_border_at_final_position]
  · simp [hd]

/-- Witness for C10: the debounce timer fires at time 7 with nothing
tracked; the compositor state is untouched and no settle event occurs. -/
theorem c10_null_rect_noop_witness :
    (runStep [] true (fun _ => none) 7 ⟨⟨none, some 7⟩, ⟨[], none⟩⟩).1.comp = ⟨[], none⟩
    ∧ (runStep [] true (fun _ => none) 7 ⟨⟨none, some 7⟩, ⟨[], none⟩⟩).2 = false :=
  c10_null_rect_noop.2 [] true (fun _ => none) 7 ⟨⟨none, some 7⟩, ⟨[], none⟩⟩ rfl
    (by decide)

/-- The focus-tracking component of one `runStep` is `trackStep`. -/
theorem runStep_track (screens : List Screen) (b : Bool) (samples : Nat → Option QRect)
    (now : Nat) (st : AppState) :
    ((runStep screens b samples now st).1.track, (runStep screens b samples now st).2)
      = trackStep samples now st.track := by
  simp only [runStep, trackStep, check_for_window_changes]
  by_cases h1 : now % POLL_PERIOD = 0
  · by_cases h2 : samples (now / POLL_PERIOD) ≠ st.track.last_active_rect
    · by_cases h4 : (samples (now / POLL_PERIOD)).isSome
      · by_cases h3 : (some (now + DEBOUNCE_DELAY) : Option Nat) = some now <;>
          simp [h1, h2, h4, h3]
      · by_cases h3 : st.track.deadline = some now <;> simp [h1, h2, h4, h3]
    · by_cases h3 : st.track.deadline = some now <;> simp [h1, h2, h3]
  · by_cases h3 : st.track.deadline = some now <;> simp [h1, h3]

/-- The focus tracker run in isolation, starting from the startup state. -/
def trackRun (samples : Nat → Option QRect) : Nat → TrackState × Bool
  | 0 => trackStep samples 0 ⟨none, none⟩
  | t + 1 => trackStep samples (t + 1) (trackRun samples t).1

/-- The app run and the isolated tracker run agree on the tracking state and
the settle events. -/
theorem run_track_eq (screens : List Screen) (b : Bool)
    (samples : Nat → Option QRect) :
    ∀ t, ((run screens b samples t).1.track, (run screens b samples t).2)
      = trackRun samples t := by
  intro t
  induction t with
  | zero => exact runStep_track screens b samples 0 (initialAppState screens)
  | succ t ih =>
    have h := runStep_track screens b samples (t + 1) (run screens b samples t).1
    have h1 : (trackRun samples t).1 = (run screens b samples t).1.track :=
      (congrArg Prod.fst ih).symm
    rw [show trackRun samples (t + 1) = trackStep samples (t + 1) (trackRun samples t).1
          from rfl, h1]
    exact h

/-- Full characterisation of the tracker run when the raw samples are
non-null, change at every tick up to tick `N`, and stay constant
afterwards: the tracked rectangle follows the latest sample, the debounce
deadline is rearmed to 200 after each change and consumed at `100·N + 200`,
and the settle event happens exactly at `100·N + 200`. -/
theorem trackRun_invariant (samples : Nat → Option QRect) (N : Nat)
    (hs : ∀ k, (samples k).isSome = true)
    (hchg : ∀ k, k < N → samples (k + 1) ≠ samples k)
    (hconst : ∀ k, N ≤ k → samples k = samples N) :
    ∀ t, (trackRun samples t).1.last_active_rect = samples (min (t / 100) N)
      ∧ (trackRun samples t).1.deadline
          = (if t < 100 * N + 200 then some (100 * min (t / 100) N + 200) else none)
      ∧ ((trackRun samples t).2 = true ↔ t = 100 * N + 200) := by
  intro t
  induction t with
  | zero =>
    have hunf : trackRun samples 0 = trackStep samples 0 ⟨none, none⟩ := rfl
    have h0 : samples 0 ≠ (none : Option QRect) :=
      Option.ne_none_iff_isSome.mpr (hs 0)
    have ha : 0 < 100 * N + 200 := by omega
    have hb : ¬((0 : Nat) = 100 * N + 200) := by omega
    rw [hunf]
    simp only [trackStep, POLL_PERIOD, DEBOUNCE_DELAY, Nat.zero_mod, Nat.zero_div]
    simp [h0, hs 0, ha, hb]
  | succ t ih =>
    obtain ⟨ih1, ih2, ih3⟩ := ih
    have hunf : trackRun samples (t + 1)
        = trackStep samples (t + 1) (trackRun samples t).1 := rfl
    rw [hunf]
    simp only [trackStep, POLL_PERIOD, DEBOUNCE_DELAY]
    by_cases hmod : (t + 1) % 100 = 0
    · rw [if_pos hmod]
      set k := (t + 1) / 100 with hk
      have hk1 : t + 1 = 100 * k := by omega
      have htk : t / 100 = k - 1 := by omega
      by_cases hkN : k ≤ N
      · have hminp : min (t / 100) N = k - 1 := by omega
        have hne : samples k ≠ samples (k - 1) := by
          have h := hchg (k - 1) (by omega)
          have he : k - 1 + 1 = k := by omega
          rw [he] at h
          exact h
        have hcond : samples k ≠ (trackRun samples t).1.last_active_rect := by
          rw [ih1, hminp]
          exact hne
        have hmink : min k N = k := by omega
        have ha : t + 1 < 100 * N + 200 := by omega
        have hb : ¬(t + 1 + 200 = t + 1) := by omega
        have hc : ¬(t + 1 = 100 * N + 200) := by omega
        simp [hcond, hs k, hmink, ha, hb, hc]
        omega
      · have hminp : min (t / 100) N = N := by omega
        have hsame : samples k = samples N := hconst k (by omega)
        have hmink : min k N = N := by omega
        by_cases hlt : t + 1 < 100 * N + 200
        · have ha : t < 100 * N + 200 := by omega
          have hb : ¬(100 * N + 199 = t) := by omega
          have hc : ¬(t = 100 * N + 199) := by omega
          have hd : ¬(t + 1 = 100 * N + 200) := by omega
          simp [hsame, ih1, ih2, hminp, hmink, hlt, ha, hb, hc, hd]
        · by_cases heq : t + 1 = 100 * N + 200
          · have ha : t < 100 * N + 200 := by omega
            have hb : (100 * N + 199 = t) := by omega
            simp [hsame, ih1, ih2, hminp, hmink, hlt, hs N, ha, hb]
          · have ha : ¬(t < 100 * N + 200) := by omega
            have hb : ¬(100 * N + 199 = t) := by omega
            have hc : ¬(t = 100 * N + 199) := by omega
            simp [hsame, ih1, ih2, hminp, hmink, hlt, heq, ha, hb, hc]
    · rw [if_neg hmod]
      have hdiv : (t + 1) / 100 = t / 100 := by omega
      by_cases hlt : t + 1 < 100 * N + 200
      · have ha : t < 100 * N + 200 := by omega
        have hb : ¬(100 * (t / 100 ⊓ N) + 199 = t) := by omega
        have hc : ¬(t = 100 * N + 199) := by omega
        simp [ih1, ih2, hdiv, hlt, ha, hb, hc]
      · have ha : ¬(t < 100 * N + 200) := by omega
        have hb : ¬(t = 100 * N + 199) := by omega
        simp [ih1, ih2, hdiv, hlt, ha, hb]

/-- C2: when every raw sample is non-null, differs from its predecessor at
every tick up to tick `N`, and stays constant from tick `N` on, a settle
event (the debounce callback showing the border) happens at exactly one
time: `DEBOUNCE_DELAY` after the last change — never while the samples are
still changing, and never again afterwards. -/
theorem c2_debounce_suppression (screens : List Screen) (blur_enabled : Bool)
    (samples : Nat → Option QRect) (N : Nat)
    (hs : ∀ k, (samples k).isSome = true)
    (hchg : ∀ k, k < N → samples (k + 1) ≠ samples k)
    (hconst : ∀ k, N ≤ k → samples k = samples N) :
    ∀ t, settleAt screens blur_enabled samples t = true
      ↔ t = POLL_PERIOD * N + DEBOUNCE_DELAY := by
  intro t
  have h := (trackRun_invariant samples N hs hchg hconst t).2.2
  have he : (run screens blur_enabled samples t).2 = (trackRun samples t).2 :=
    congrArg Prod.snd (run_track_eq screens blur_enabled samples t)
  simp only [settleAt, POLL_PERIOD, DEBOUNCE_DELAY]
  rw [he]
  exact h

/-- A sample sequence that changes on ticks 1 and 2 and is constant from
tick 2 on; used to witness C2 with `N = 2`. -/
def c2SampleSeq : Nat → Option QRect :=
  fun k => some ⟨Int.ofNat (min k 2), 0, 100, 100⟩

/-- Witness for C2: with changes at ticks 0, 1, 2 (times 0, 100, 200) and
constant samples afterwards, the settle event happens at time 400 = 200 +
200 and, e.g., not at time 250. -/
theorem c2_debounce_suppression_witness :
    settleAt [] true c2SampleSeq 400 = true ∧ settleAt [] true c2SampleSeq 250 = false := by
  have h := c2_debounce_suppression [] true c2SampleSeq 2
    (fun k => rfl)
    (fun k hk => by
      match k, hk with
      | 0, _ => decide
      | 1, _ => decide)
    (fun k hk => by
      have hm : min k 2 = 2 := by omega
      simp only [c2SampleSeq, hm, Nat.min_self])
  constructor
  · exact (h 400).mpr (by norm_num [POLL_PERIOD, DEBOUNCE_DELAY])
  · cases hb : settleAt [] true c2SampleSeq 250 with
    | false => rfl
    | true =>
      exact absurd ((h 250).mp hb) (by norm_num [POLL_PERIOD, DEBOUNCE_DELAY])

/-- Once the samples are null from tick `k` on, nothing is tracked and no
settle event ever happens from time `100·k` on. -/
theorem trackRun_none_after (samples : Nat → Option QRect) (k : Nat)
    (hnone : ∀ j, k ≤ j → samples j = none) :
    ∀ t, 100 * k ≤ t →
      (trackRun samples t).1.last_active_rect = none ∧ (trackRun samples t).2 = false := by
  intro t
  induction t with
  | zero =>
    intro ht
    have h0 : samples 0 = none := hnone 0 (by omega)
    have hunf : trackRun samples 0 = trackStep samples 0 ⟨none, none⟩ := rfl
    rw [hunf]
    simp [trackStep, POLL_PERIOD, h0]
  | succ t ih =>
    intro ht
    have hunf : trackRun samples (t + 1)
        = trackStep samples (t + 1) (trackRun samples t).1 := rfl
    rw [hunf]
    simp only [trackStep, POLL_PERIOD, DEBOUNCE_DELAY]
    by_cases hmod : (t + 1) % 100 = 0
    · rw [if_pos hmod]
      have hidx : k ≤ (t + 1) / 100 := by omega
      have hnone1 : samples ((t + 1) / 100) = none := hnone _ hidx
      rw [hnone1]
      by_cases hch : (none : Option QRect) ≠ (trackRun samples t).1.last_active_rect
      · rw [if_pos hch]
        by_cases hd : (trackRun samples t).1.deadline = some (t + 1) <;> simp [hd]
      · rw [if_neg hch]
        push_neg at hch
        by_cases hd : (trackRun samples t).1.deadline = some (t + 1) <;>
          simp [hd, ← hch]
    · rw [if_neg hmod]
      have hprev : 100 * k ≤ t := by omega
      obtain ⟨ih1, ih2⟩ := ih hprev
      by_cases hd : (trackRun samples t).1.deadline = some (t + 1) <;> simp [hd, ih1]

/-- C6: on any tick whose sample differs from the last observed raw sample,
every border overlay and every blur panel is hidden on that same tick, the
new sample is recorded, and the debounce timer is rearmed to
`now + DEBOUNCE_DELAY` exactly when the sample is non-null (a null sample
leaves the timer state untouched); moreover, once the probe returns null
from tick `k` on, no settle event happens at any time from `100·k` on. -/
theorem c6_change_hides_and_rearms :
    (∀ (tr : TrackState) (comp : CompositorState) (s : Option QRect) (now : Nat),
        s ≠ tr.last_active_rect →
        (∀ surf ∈ (check_for_window_changes tr comp s now).2.surfaces,
            surf.borderVisible = false ∧ surf.blurPanels = hiddenPanels)
        ∧ (check_for_window_changes tr comp s now).1.last_active_rect = s
        ∧ (∀ r : QRect, s = some r →
            (check_for_window_changes tr comp s now).1.deadline
              = some (now + DEBOUNCE_DELAY))
        ∧ (s = none →
            (check_for_window_changes tr comp s now).1.deadline = tr.deadline))
    ∧ (∀ (screens : List Screen) (b : Bool) (samples : Nat → Option QRect) (k : Nat),
        (∀ j, k ≤ j → samples j = none) →
        ∀ t, POLL_PERIOD * k ≤ t → settleAt screens b samples t = false) := by
  refine ⟨?_, ?_⟩
  · intro tr comp s now hne
    refine ⟨?_, ?_, ?_, ?_⟩
    · intro surf hsurf
      simp only [check_for_window_changes, if_pos hne, List.mem_map] at hsurf
      obtain ⟨x, _, rfl⟩ := hsurf
      exact ⟨rfl, rfl⟩
    · simp [check_for_window_changes, hne]
    · intro r hr
      subst hr
      simp [check_for_window_changes, hne]
    · intro hr
      subst hr
      simp [check_for_window_changes, hne]
  · intro screens b samples k hnone t ht
    have he : (run screens b samples t).2 = (trackRun samples t).2 :=
      congrArg Prod.snd (run_track_eq screens b samples t)
    have h := (trackRun_none_after samples k hnone t
      (by simpa [POLL_PERIOD] using ht)).2
    simp only [settleAt]
    rw [he, h]

/-- Witness for C6: a null sample arriving while a rectangle was tracked
hides the (single) display's surfaces, clears the tracked rectangle, leaves
the running debounce deadline untouched; and with all-null samples no
settle event happens, e.g. at time 123. -/
theorem c6_change_hides_and_rearms_witness :
    (∀ surf ∈ (check_for_window_changes ⟨some ⟨0, 0, 60, 60⟩, some 300⟩
        ⟨[⟨⟨0, 0, 60, 60⟩, 1, true, [some ⟨0, 0, 10, 10⟩, none, none, none]⟩], none⟩
        none 500).2.surfaces,
        surf.borderVisible = false ∧ surf.blurPanels = hiddenPanels)
    ∧ (check_for_window_changes ⟨some ⟨0, 0, 60, 60⟩, some 300⟩
        ⟨[⟨⟨0, 0, 60, 60⟩, 1, true, [some ⟨0, 0, 10, 10⟩, none, none, none]⟩], none⟩
        none 500).1.last_active_rect = none
    ∧ (check_for_window_changes ⟨some ⟨0, 0, 60, 60⟩, some 300⟩
        ⟨[⟨⟨0, 0, 60, 60⟩, 1, true, [some ⟨0, 0, 10, 10⟩, none, none, none]⟩], none⟩
        none 500).1.deadline = some 300
    ∧ settleAt [] true (fun _ => none) 123 = false := by
  have hx := c6_change_hides_and_rearms.1 ⟨some ⟨0, 0, 60, 60⟩, some 300⟩
    ⟨[⟨⟨0, 0, 60, 60⟩, 1, true, [some ⟨0, 0, 10, 10⟩, none, none, none]⟩], none⟩
    none 500 (by decide)
  refine ⟨hx.1, hx.2.1, ?_, ?_⟩
  · rw [hx.2.2.2 rfl]
  · exact c6_change_hides_and_rearms.2 [] true (fun _ => none) 0
      (fun j _ => rfl) 123 (by decide)
